import Mathlib

/-!
Verification of the atm0s-sdn repository: a shallow embedding of the
key-value local agent (packages/services/key_value/src/behavior/simple_local.rs),
the virtual-network fabric (packages/transports/vnet/src/earth.rs) and the
TCP connection receiver (packages/transports/tcp/src/connection.rs),
together with theorems settling the specification's claims about them.

Machine integers are modelled as Nat with explicit reduction modulo 2^w
where the Rust code can wrap (u64 counters, the u64 left shift in
gen_version, the u16 cast of the round-trip time).  Rust HashMaps are
modelled as association lists (one entry per key); callbacks and
subscription handlers, which are opaque closures in the source, are
modelled by appending their invocation records to observable logs.
-/

namespace Atm0sSdn

/-- Wrapping subtraction of u64 values (Rust release-mode semantics of
a - b on u64); agrees with Nat subtraction whenever b ≤ a < 2^64. -/
def u64sub (a b : Nat) : Nat := (a % 2^64 + (2^64 - b % 2^64)) % 2^64

section AList

variable {α : Type}

/-- Lookup in an association list keyed by Nat (model of HashMap::get). -/
def alistLookup (k : Nat) : List (Nat × α) → Option α
  | [] => none
  | (k', v) :: rest => if k' = k then some v else alistLookup k rest

/-- Insert-or-replace (model of HashMap::insert). -/
def alistInsert (k : Nat) (v : α) : List (Nat × α) → List (Nat × α)
  | [] => [(k, v)]
  | (k', v') :: rest => if k' = k then (k, v) :: rest else (k', v') :: alistInsert k v rest

/-- Update the entry at key k in place if present (model of HashMap::get_mut
followed by a field mutation). -/
def alistModify (k : Nat) (f : α → α) : List (Nat × α) → List (Nat × α)
  | [] => []
  | (k', v) :: rest => if k' = k then (k', f v) :: rest else (k', v) :: alistModify k f rest

/-- Remove the entry at key k (model of HashMap::remove). -/
def alistRemove (k : Nat) (l : List (Nat × α)) : List (Nat × α) :=
  l.filter (fun p => p.1 != k)

/-- Remove every key in ks (model of the removal loops at the end of tick). -/
def removeKeys (ks : List Nat) (l : List (Nat × α)) : List (Nat × α) :=
  l.filter (fun p => !(ks.contains p.1))

end AList

/-! ## Key-value wire messages (packages/services/key_value, msg module)

KeyId, ReqId, KeyVersion are u64; KeySource is a NodeId (u32); values are
byte vectors, modelled as List Nat. -/

/-- Routing rule attached to an outgoing action (bluesea_router::RouteRule);
only the two constructors the agent uses are modelled.  ToKey carries a u32
(the code truncates the u64 key with an as-cast). -/
inductive RouteRule
  | ToNode (node : Nat)
  | ToKey (key : Nat)
deriving DecidableEq

/-- SimpleRemoteEvent: events the local agent sends to remote storage. -/
inductive SimpleRemoteEvent
  | Set (req key : Nat) (value : List Nat) (version : Nat) (ex : Option Nat)
  | Get (req key : Nat)
  | Del (req key version : Nat)
  | Sub (req key : Nat) (ex : Option Nat)
  | Unsub (req key : Nat)
  | OnKeySetAck (req : Nat)
  | OnKeyDelAck (req : Nat)
deriving DecidableEq

/-- SimpleLocalEvent: events delivered to the local agent. -/
inductive SimpleLocalEvent
  | SetAck (req key version : Nat) (success : Bool)
  | GetAck (req key : Nat) (value : Option (List Nat × Nat × Nat))
  | DelAck (req key : Nat) (version : Option Nat)
  | SubAck (req key : Nat)
  | UnsubAck (req key : Nat) (success : Bool)
  | OnKeySet (req key : Nat) (value : List Nat) (version source : Nat)
  | OnKeyDel (req key : Nat) (version source : Nat)
deriving DecidableEq

/-- LocalStorageAction(event, route): one queued outgoing action. -/
structure LocalStorageAction where
  event : SimpleRemoteEvent
  route : RouteRule
deriving DecidableEq

/-- SimpleKeyValueGetError from simple_local.rs. -/
inductive SimpleKeyValueGetError
  | NetworkError
  | Timeout
deriving DecidableEq

/-- Result handed to a get callback: mirrors Rust's
Result of Option (value, version, source) or SimpleKeyValueGetError. -/
inductive GetResult
  | ok (value : Option (List Nat × Nat × Nat))
  | err (e : SimpleKeyValueGetError)
deriving DecidableEq

/-- KeySlotData from simple_local.rs. -/
structure KeySlotData where
  value : Option (List Nat)
  ex : Option Nat
  version : Nat
  last_sync : Nat
  acked : Bool
deriving DecidableEq

/-- KeySlotSubscribe from simple_local.rs.  The handler closure is not a
field here; handler invocations are recorded in the storage's
handler_calls log instead. -/
structure KeySlotSubscribe where
  ex : Option Nat
  last_sync : Nat
  sub : Bool
  acked : Bool
deriving DecidableEq

/-- A recorded subscription-handler invocation
(key, optional value, version, source). -/
abbrev HandlerCall : Type := Nat × Option (List Nat) × Nat × Nat

/-- SimpleLocalStorage state.  The Rust fields data, subscribe, get_queue
are HashMaps, modelled as association lists; req_id_seed is the AtomicU64;
version_seed the u16 counter.  The timer is passed explicitly to each
operation as a now argument.  notify_count counts awake_notify.notify()
calls; handler_calls and get_callbacks log the callback invocations
performed by on_event and tick (a GetSlot's callback is identified by its
ReqId, so get_queue maps ReqId to the slot's timeout_after_ts). -/
structure SimpleLocalStorage where
  req_id_seed : Nat
  version_seed : Nat
  sync_each_ms : Nat
  data : List (Nat × KeySlotData)
  subs : List (Nat × KeySlotSubscribe)
  get_queue : List (Nat × Nat)
  output_events : List LocalStorageAction
  notify_count : Nat
  handler_calls : List HandlerCall
  get_callbacks : List (Nat × GetResult)
deriving DecidableEq

namespace SimpleLocalStorage

/-- SimpleLocalStorage::new(timer, awake_notify, sync_each_ms). -/
def new (sync_each_ms : Nat) : SimpleLocalStorage :=
  { req_id_seed := 0
    version_seed := 0
    sync_each_ms := sync_each_ms
    data := []
    subs := []
    get_queue := []
    output_events := []
    notify_count := 0
    handler_calls := []
    get_callbacks := [] }

/-- The version value produced by gen_version from a clock reading and the
current 16-bit seed: (now_ms shifted left by 16, bitwise-or seed) as u64.
Because the low 16 bits of the shifted value are zero, the bitwise or
equals addition; the u64 shift discards high bits, hence the reduction
modulo 2^64. -/
def genVersionVal (now seed : Nat) : Nat :=
  (now * 2^16 + seed % 2^16) % 2^64

/-- SimpleLocalStorage::gen_version: returns the version and the state with
the 16-bit seed incremented with wrap-around. -/
def genVersion (now : Nat) (s : SimpleLocalStorage) : Nat × SimpleLocalStorage :=
  (genVersionVal now s.version_seed, { s with version_seed := (s.version_seed + 1) % 2^16 })

/-- SimpleLocalStorage::set(key, value, ex). -/
def set (now key : Nat) (value : List Nat) (ex : Option Nat) (s : SimpleLocalStorage) :
    SimpleLocalStorage :=
  let req := s.req_id_seed
  let ver := genVersionVal now s.version_seed
  { s with
    req_id_seed := (s.req_id_seed + 1) % 2^64
    version_seed := (s.version_seed + 1) % 2^16
    data := alistInsert key ⟨some value, ex, ver, 0, false⟩ s.data
    output_events := s.output_events ++ [⟨.Set req key value ver ex, .ToKey (key % 2^32)⟩]
    notify_count := s.notify_count + 1 }

/-- SimpleLocalStorage::get(key, callback, timeout_ms); the callback later
shows up in get_callbacks keyed by the allocated ReqId. -/
def get (now key timeout_ms : Nat) (s : SimpleLocalStorage) : SimpleLocalStorage :=
  let req := s.req_id_seed
  { s with
    req_id_seed := (s.req_id_seed + 1) % 2^64
    get_queue := alistInsert req ((now + timeout_ms) % 2^64) s.get_queue
    output_events := s.output_events ++ [⟨.Get req key, .ToKey (key % 2^32)⟩]
    notify_count := s.notify_count + 1 }

/-- The in-place mutation del performs on an existing data slot. -/
def clearDataSlot (sl : KeySlotData) : KeySlotData :=
  { sl with value := none, last_sync := 0, acked := false }

/-- The in-place mutation unsubscribe performs on an existing subscribe slot. -/
def clearSubSlot (sl : KeySlotSubscribe) : KeySlotSubscribe :=
  { sl with sub := false, last_sync := 0, acked := false }

/-- SimpleLocalStorage::del(key): the request id is generated before the
slot lookup, so it is consumed even when the key is unknown. -/
def del (key : Nat) (s : SimpleLocalStorage) : SimpleLocalStorage :=
  let req := s.req_id_seed
  match alistLookup key s.data with
  | some slot =>
    { s with
      req_id_seed := (s.req_id_seed + 1) % 2^64
      data := alistModify key clearDataSlot s.data
      output_events := s.output_events ++ [⟨.Del req key slot.version, .ToKey (key % 2^32)⟩]
      notify_count := s.notify_count + 1 }
  | none => { s with req_id_seed := (s.req_id_seed + 1) % 2^64 }

/-- SimpleLocalStorage::subscribe(key, ex, handler): returns before
generating a request id when the key is already subscribed. -/
def subscribe (key : Nat) (ex : Option Nat) (s : SimpleLocalStorage) : SimpleLocalStorage :=
  if (alistLookup key s.subs).isSome then s
  else
    let req := s.req_id_seed
    { s with
      req_id_seed := (s.req_id_seed + 1) % 2^64
      subs := alistInsert key ⟨ex, 0, true, false⟩ s.subs
      output_events := s.output_events ++ [⟨.Sub req key ex, .ToKey (key % 2^32)⟩]
      notify_count := s.notify_count + 1 }

/-- SimpleLocalStorage::unsubscribe(key): the request id is generated
before the slot lookup, so it is consumed even when the key is unknown. -/
def unsubscribe (key : Nat) (s : SimpleLocalStorage) : SimpleLocalStorage :=
  let req := s.req_id_seed
  match alistLookup key s.subs with
  | some _ =>
    { s with
      req_id_seed := (s.req_id_seed + 1) % 2^64
      subs := alistModify key clearSubSlot s.subs
      output_events := s.output_events ++ [⟨.Unsub req key, .ToKey (key % 2^32)⟩]
      notify_count := s.notify_count + 1 }
  | none => { s with req_id_seed := (s.req_id_seed + 1) % 2^64 }

/-- Slot update performed by a successful SetAck: mark acked only when the
acknowledged version equals the slot's current version. -/
def applySetAck (version : Nat) (sl : KeySlotData) : KeySlotData :=
  if sl.version = version then { sl with acked := true } else sl

/-- Slot update performed by DelAck: with a deleted version, mark acked
when that version is not newer than the slot's; with none, always ack. -/
def applyDelAck (version : Option Nat) (sl : KeySlotData) : KeySlotData :=
  match version with
  | some dv => if dv ≤ sl.version then { sl with acked := true } else sl
  | none => { sl with acked := true }

/-- Slot update performed by SubAck: ack only a subscribing slot. -/
def applySubAck (sl : KeySlotSubscribe) : KeySlotSubscribe :=
  if sl.sub then { sl with acked := true } else sl

/-- Slot update performed by a successful UnsubAck: ack only an
unsubscribing slot. -/
def applyUnsubAck (sl : KeySlotSubscribe) : KeySlotSubscribe :=
  if sl.sub = false then { sl with acked := true } else sl

/-- SimpleLocalStorage::on_event(from, event). -/
def onEvent (fromNode : Nat) (ev : SimpleLocalEvent) (s : SimpleLocalStorage) :
    SimpleLocalStorage :=
  match ev with
  | .SetAck _req key version success =>
    if success then { s with data := alistModify key (applySetAck version) s.data }
    else s
  | .GetAck req _key value =>
    match alistLookup req s.get_queue with
    | some _ =>
      { s with
        get_queue := alistRemove req s.get_queue
        get_callbacks := s.get_callbacks ++ [(req, GetResult.ok value)] }
    | none => s
  | .DelAck _req key version =>
    { s with data := alistModify key (applyDelAck version) s.data }
  | .SubAck _req key =>
    { s with subs := alistModify key applySubAck s.subs }
  | .UnsubAck _req key success =>
    if success then { s with subs := alistModify key applyUnsubAck s.subs }
    else s
  | .OnKeySet req key value version source =>
    let s1 := { s with output_events := s.output_events ++ [⟨.OnKeySetAck req, .ToNode fromNode⟩] }
    match alistLookup key s.subs with
    | some sl =>
      if sl.sub then
        { s1 with handler_calls := s1.handler_calls ++ [(key, some value, version, source)] }
      else s1
    | none => s1
  | .OnKeyDel req key version source =>
    let s1 := { s with output_events := s.output_events ++ [⟨.OnKeyDelAck req, .ToNode fromNode⟩] }
    match alistLookup key s.subs with
    | some sl =>
      if sl.sub then
        { s1 with handler_calls := s1.handler_calls ++ [(key, none, version, source)] }
      else s1
    | none => s1

/-- The single action that the retransmit loop of tick emits for an
unacked data slot: Set when the slot holds a value, Del otherwise. -/
def mkDataAction (req k : Nat) (slot : KeySlotData) : LocalStorageAction :=
  match slot.value with
  | some v => ⟨.Set req k v slot.version slot.ex, .ToKey (k % 2^32)⟩
  | none => ⟨.Del req k slot.version, .ToKey (k % 2^32)⟩

/-- The single action that the retransmit loop of tick emits for an
unacked subscribe slot: Sub when sub is set, Unsub otherwise. -/
def mkSubAction (req k : Nat) (slot : KeySlotSubscribe) : LocalStorageAction :=
  if slot.sub then ⟨.Sub req k slot.ex, .ToKey (k % 2^32)⟩
  else ⟨.Unsub req k, .ToKey (k % 2^32)⟩

/-- Actions of the first tick loop (resend for every unacked data slot);
each emission consumes one request id. -/
def dataResendActs (seed : Nat) : List (Nat × KeySlotData) → List LocalStorageAction
  | [] => []
  | (k, slot) :: rest =>
    if slot.acked then dataResendActs seed rest
    else mkDataAction seed k slot :: dataResendActs ((seed + 1) % 2^64) rest

/-- Request-id seed after the first tick loop. -/
def dataResendSeed (seed : Nat) : List (Nat × KeySlotData) → Nat
  | [] => seed
  | (_, slot) :: rest =>
    if slot.acked then dataResendSeed seed rest
    else dataResendSeed ((seed + 1) % 2^64) rest

/-- Actions of the second tick loop (resend for every unacked subscribe slot). -/
def subResendActs (seed : Nat) : List (Nat × KeySlotSubscribe) → List LocalStorageAction
  | [] => []
  | (k, slot) :: rest =>
    if slot.acked then subResendActs seed rest
    else mkSubAction seed k slot :: subResendActs ((seed + 1) % 2^64) rest

/-- Request-id seed after the second tick loop. -/
def subResendSeed (seed : Nat) : List (Nat × KeySlotSubscribe) → Nat
  | [] => seed
  | (_, slot) :: rest =>
    if slot.acked then subResendSeed seed rest
    else subResendSeed ((seed + 1) % 2^64) rest

/-- Actions of the third tick loop (periodic sync of acked data slots):
a Set when the slot holds a value; an acked empty slot emits nothing but
still consumes a request id (gen_req_id is called before the branch). -/
def dataSyncActs (now syncMs seed : Nat) : List (Nat × KeySlotData) → List LocalStorageAction
  | [] => []
  | (k, slot) :: rest =>
    if slot.acked ∧ syncMs ≤ u64sub now slot.last_sync then
      match slot.value with
      | some v =>
        ⟨.Set seed k v slot.version slot.ex, .ToKey (k % 2^32)⟩ ::
          dataSyncActs now syncMs ((seed + 1) % 2^64) rest
      | none => dataSyncActs now syncMs ((seed + 1) % 2^64) rest
    else dataSyncActs now syncMs seed rest

/-- Request-id seed after the third tick loop. -/
def dataSyncSeed (now syncMs seed : Nat) : List (Nat × KeySlotData) → Nat
  | [] => seed
  | (_, slot) :: rest =>
    if slot.acked ∧ syncMs ≤ u64sub now slot.last_sync then
      dataSyncSeed now syncMs ((seed + 1) % 2^64) rest
    else dataSyncSeed now syncMs seed rest

/-- Keys collected in removed_keys by the third tick loop (acked slots
holding no value). -/
def dataSyncRemoved (now syncMs : Nat) : List (Nat × KeySlotData) → List Nat
  | [] => []
  | (k, slot) :: rest =>
    if slot.acked ∧ syncMs ≤ u64sub now slot.last_sync then
      match slot.value with
      | some _ => dataSyncRemoved now syncMs rest
      | none => k :: dataSyncRemoved now syncMs rest
    else dataSyncRemoved now syncMs rest

/-- The pass that writes last_sync := now on every acked data slot whose
sync deadline elapsed. -/
def dataUpdateLastSync (now syncMs : Nat) (l : List (Nat × KeySlotData)) :
    List (Nat × KeySlotData) :=
  l.map (fun p =>
    if p.2.acked ∧ syncMs ≤ u64sub now p.2.last_sync then (p.1, { p.2 with last_sync := now })
    else p)

/-- Actions of the fourth tick loop (periodic sync of acked subscribe
slots): a Sub when sub is set; an acked unsubscribed slot emits nothing
but still consumes a request id. -/
def subSyncActs (now syncMs seed : Nat) : List (Nat × KeySlotSubscribe) → List LocalStorageAction
  | [] => []
  | (k, slot) :: rest =>
    if slot.acked ∧ syncMs ≤ u64sub now slot.last_sync then
      if slot.sub then
        ⟨.Sub seed k slot.ex, .ToKey (k % 2^32)⟩ ::
          subSyncActs now syncMs ((seed + 1) % 2^64) rest
      else subSyncActs now syncMs ((seed + 1) % 2^64) rest
    else subSyncActs now syncMs seed rest

/-- Request-id seed after the fourth tick loop. -/
def subSyncSeed (now syncMs seed : Nat) : List (Nat × KeySlotSubscribe) → Nat
  | [] => seed
  | (_, slot) :: rest =>
    if slot.acked ∧ syncMs ≤ u64sub now slot.last_sync then
      subSyncSeed now syncMs ((seed + 1) % 2^64) rest
    else subSyncSeed now syncMs seed rest

/-- Keys collected in unsub_keys by the fourth tick loop (acked slots with
sub unset). -/
def subSyncRemoved (now syncMs : Nat) : List (Nat × KeySlotSubscribe) → List Nat
  | [] => []
  | (k, slot) :: rest =>
    if slot.acked ∧ syncMs ≤ u64sub now slot.last_sync then
      if slot.sub then subSyncRemoved now syncMs rest
      else k :: subSyncRemoved now syncMs rest
    else subSyncRemoved now syncMs rest

/-- The update of last_sync on every acked subscribe slot whose sync
deadline elapsed. -/
def subUpdateLastSync (now syncMs : Nat) (l : List (Nat × KeySlotSubscribe)) :
    List (Nat × KeySlotSubscribe) :=
  l.map (fun p =>
    if p.2.acked ∧ syncMs ≤ u64sub now p.2.last_sync then (p.1, { p.2 with last_sync := now })
    else p)

/-- All actions appended to the output queue by one tick, in push order:
loop 1 (data resend), loop 2 (subscribe resend), loop 3 (data sync),
loop 4 (subscribe sync).  The request-id counter threads through the loops
in this order. -/
def tickNewActions (now : Nat) (s : SimpleLocalStorage) : List LocalStorageAction :=
  dataResendActs s.req_id_seed s.data
    ++ subResendActs (dataResendSeed s.req_id_seed s.data) s.subs
    ++ dataSyncActs now s.sync_each_ms
        (subResendSeed (dataResendSeed s.req_id_seed s.data) s.subs) s.data
    ++ subSyncActs now s.sync_each_ms
        (dataSyncSeed now s.sync_each_ms
          (subResendSeed (dataResendSeed s.req_id_seed s.data) s.subs) s.data) s.subs

/-- The Err(Timeout) callbacks fired by one tick: one per GetSlot whose
timeout_after_ts has been reached. -/
def tickTimeoutCallbacks (now : Nat) (s : SimpleLocalStorage) : List (Nat × GetResult) :=
  ((s.get_queue.filter (fun p => decide (p.2 ≤ now))).map Prod.fst).map
    (fun r => (r, GetResult.err SimpleKeyValueGetError.Timeout))

/-- SimpleLocalStorage::tick, with the timer reading passed as now. -/
def tick (now : Nat) (s : SimpleLocalStorage) : SimpleLocalStorage :=
  { s with
    req_id_seed :=
      subSyncSeed now s.sync_each_ms
        (dataSyncSeed now s.sync_each_ms
          (subResendSeed (dataResendSeed s.req_id_seed s.data) s.subs) s.data) s.subs
    data := removeKeys (dataSyncRemoved now s.sync_each_ms s.data)
      (dataUpdateLastSync now s.sync_each_ms s.data)
    subs := removeKeys (subSyncRemoved now s.sync_each_ms s.subs)
      (subUpdateLastSync now s.sync_each_ms s.subs)
    get_queue := s.get_queue.filter (fun p => !decide (p.2 ≤ now))
    output_events := s.output_events ++ tickNewActions now s
    get_callbacks := s.get_callbacks ++ tickTimeoutCallbacks now s }

/-- SimpleLocalStorage::pop_action. -/
def popAction (s : SimpleLocalStorage) : Option LocalStorageAction × SimpleLocalStorage :=
  match s.output_events with
  | [] => (none, s)
  | a :: rest => (some a, { s with output_events := rest })

/-- The key an action addresses, if any. -/
def actionKey (a : LocalStorageAction) : Option Nat :=
  match a.event with
  | .Set _ k _ _ _ => some k
  | .Get _ k => some k
  | .Del _ k _ => some k
  | .Sub _ k _ => some k
  | .Unsub _ k => some k
  | .OnKeySetAck _ => none
  | .OnKeyDelAck _ => none

/-- The key of a data-slot action (Set or Del), if any. -/
def actionDataKey (a : LocalStorageAction) : Option Nat :=
  match a.event with
  | .Set _ k _ _ _ => some k
  | .Del _ k _ => some k
  | _ => none

/-- The key of a subscribe-slot action (Sub or Unsub), if any. -/
def actionSubKey (a : LocalStorageAction) : Option Nat :=
  match a.event with
  | .Sub _ k _ => some k
  | .Unsub _ k => some k
  | _ => none

end SimpleLocalStorage

/-! ## Virtual network fabric (packages/transports/vnet/src/earth.rs) -/

namespace Vnet

/-- Direction namespace of a connection identifier. -/
inductive ConnDirection
  | outgoing
  | incoming
deriving DecidableEq

/-- Modelled from the spec: ConnId (from the bluesea_identity crate, whose
source is not in the repository snapshot) is a 64-bit identifier namespaced
by protocol id, direction and a monotonic counter; ConnId::from_out and
ConnId::from_in build the outgoing- and incoming-namespaced variants. -/
structure ConnId where
  protocol : Nat
  direction : ConnDirection
  seed : Nat
deriving DecidableEq

/-- Modelled from the spec: ConnId::from_out(protocol, seed). -/
def ConnId.fromOut (protocol seed : Nat) : ConnId :=
  ⟨protocol % 2^8, ConnDirection.outgoing, seed % 2^64⟩

/-- Modelled from the spec: ConnId::from_in(protocol, seed). -/
def ConnId.fromIn (protocol seed : Nat) : ConnId :=
  ⟨protocol % 2^8, ConnDirection.incoming, seed % 2^64⟩

/-- Modelled from the spec: the VNET_PROTOCOL_ID constant (its numeric
value is not in the repository snapshot and is immaterial to the claims:
both identifiers of one call share it). -/
def vnetProtocolId : Nat := 3

/-- Modelled from the spec: the OutgoingConnectionError taxonomy used by
the vnet fabric (the transport.rs in the snapshot is an older revision
carrying only the first two variants). -/
inductive OutgoingConnectionError
  | TooManyConnection
  | AuthenticationError
  | DestinationNotFound
  | BehaviorRejected (reason : String)
deriving DecidableEq

/-- A registered virtual port: Socket { node, addr, sender }.  The event
sender is represented by tagging emitted events with the owning port; the
address is an opaque value. -/
structure VSocket where
  node : Nat
  addr : Nat
deriving DecidableEq

/-- The synchronous listener events create_outgoing can emit.  The payload
channel halves (connection acceptors) of the request events are omitted:
the asynchronous completion path they feed (Outgoing/Incoming events from
the spawned task) is outside this sequential model. -/
inductive VnetEventShape
  | OutgoingRequest (toNode : Nat) (conn : ConnId)
  | IncomingRequest (fromNode : Nat) (conn : ConnId)
  | OutgoingErr (toNode : Nat) (conn : ConnId) (err : OutgoingConnectionError)
deriving DecidableEq

/-- VnetEarth: conn_id_seed is the AtomicU64; ports maps a port number to
its socket; connections records (conn_id, from_node, to_node). -/
structure VnetEarth where
  conn_id_seed : Nat
  ports : List (Nat × VSocket)
  connections : List (ConnId × Nat × Nat)
deriving DecidableEq

/-- Outcome of create_outgoing: the assert_ne!(from_port, to_port) at the
top of the function panics (assertFail, nothing is emitted and nothing
returned), an unregistered from_port makes the ? operator return None
(noFromPort), and otherwise the call returns the outgoing ConnId together
with the updated fabric and the synchronously sent events. -/
inductive CreateOutgoingResult
  | assertFail
  | noFromPort
  | ok (conn : ConnId) (earth : VnetEarth) (events : List (Nat × VnetEventShape))
deriving DecidableEq

/-- VnetEarth::create_outgoing(from_port, to_node, to_port): first the
assert_ne!(from_port, to_port) guard (a panic when it trips), then the
from_port lookup whose failure returns None; otherwise the outgoing
ConnId handed back to the caller, the updated fabric, and the list of
(listener port, event) pairs sent synchronously, in send order.  Mirrors
earth.rs - in particular the DestinationNotFound branch sends the
incoming-namespaced identifier conn_id_in. -/
def createOutgoing (e : VnetEarth) (from_port to_node to_port : Nat) :
    CreateOutgoingResult :=
  if from_port = to_port then CreateOutgoingResult.assertFail
  else
    match alistLookup from_port e.ports with
    | none => CreateOutgoingResult.noFromPort
    | some fromSock =>
      let connOut := ConnId.fromOut vnetProtocolId e.conn_id_seed
      let connIn := ConnId.fromIn vnetProtocolId ((e.conn_id_seed + 1) % 2^64)
      let e1 : VnetEarth := { e with conn_id_seed := (e.conn_id_seed + 2) % 2^64 }
      match alistLookup to_port e.ports with
      | some toSock =>
        if toSock.node = to_node then
          CreateOutgoingResult.ok connOut
            { e1 with connections := e1.connections ++ [(connOut, fromSock.node, toSock.node)] }
            [(from_port, VnetEventShape.OutgoingRequest to_node connOut),
             (to_port, VnetEventShape.IncomingRequest fromSock.node connIn)]
        else
          CreateOutgoingResult.ok connOut e1
            [(from_port, VnetEventShape.OutgoingErr to_node connOut
                OutgoingConnectionError.AuthenticationError)]
      | none =>
        CreateOutgoingResult.ok connOut e1
          [(from_port, VnetEventShape.OutgoingErr to_node connIn
              OutgoingConnectionError.DestinationNotFound)]

end Vnet

/-! ## TCP connection receiver (packages/transports/tcp/src/connection.rs) -/

namespace Tcp

/-- ConnectionMsg from network/src/transport.rs (stream_id is u16). -/
inductive TcpConnectionMsg (M : Type)
  | Reliable (stream_id : Nat) (data : M)
  | Unreliable (stream_id : Nat) (data : M)
deriving DecidableEq

/-- The Result payload of a ConnectResponse frame. -/
inductive ConnectResult
  | ok (peerId : Nat) (peerAddr : Nat)
  | err (reason : String)
deriving DecidableEq

/-- TcpMsg from packages/transports/tcp/src/msg.rs; node ids and addresses
are opaque numbers here. -/
inductive TcpMsg (M : Type)
  | ConnectRequest (selfId peerId : Nat) (peerAddr : Nat)
  | ConnectResponse (res : ConnectResult)
  | Ping (sent_ms : Nat)
  | Pong (sent_ms : Nat)
  | Msg (service_id : Nat) (msg : TcpConnectionMsg M)
deriving DecidableEq

/-- ConnectionStats as constructed by TcpConnectionReceiver::poll. -/
structure ConnectionStats where
  rtt_ms : Nat
  sending_kbps : Nat
  send_est_kbps : Nat
  loss_percent : Nat
  over_use : Bool
deriving DecidableEq

/-- ConnectionEvent as produced by TcpConnectionReceiver::poll. -/
inductive ConnectionEvent (M : Type)
  | Msg (service_id : Nat) (msg : TcpConnectionMsg M)
  | Stats (stats : ConnectionStats)
deriving DecidableEq

/-- OutgoingEvent from connection.rs: what the receiver pushes onto the
reliable outgoing queue. -/
inductive OutgoingEvent (M : Type)
  | Msg (msg : TcpMsg M)
  | CloseRequest
  | ClosedNotify
deriving DecidableEq

/-- The stats event built from a Pong(t0) frame at clock reading now:
rtt_ms is the wrapping u64 difference cast to u16 with as, which reduces
modulo 2^16 (it does not saturate). -/
def pongStats (now t0 : Nat) : ConnectionStats :=
  ⟨u64sub now t0 % 2^16, 0, 0, 0, false⟩

/-- Result of poll: Ok(ConnectionEvent) or the Err(()) returned at EOF. -/
inductive PollOutcome (M : Type)
  | ok (e : ConnectionEvent M)
  | err
deriving DecidableEq

/-- Sequential model of TcpConnectionReceiver::poll: the pending frames of
the inbound stream are a list (empty list = EOF).  Returns the poll result,
the frames left unconsumed, and the events pushed onto the reliable
outgoing queue during this poll, in push order.  The clock reading now is
fixed for the duration of the call. -/
def pollModel (now : Nat) {M : Type} :
    List (TcpMsg M) → PollOutcome M × List (TcpMsg M) × List (OutgoingEvent M)
  | [] => (PollOutcome.err, [], [OutgoingEvent.ClosedNotify])
  | TcpMsg.Msg sid m :: rest => (PollOutcome.ok (ConnectionEvent.Msg sid m), rest, [])
  | TcpMsg.Ping t :: rest =>
    ((pollModel now rest).1, (pollModel now rest).2.1,
      OutgoingEvent.Msg (TcpMsg.Pong t) :: (pollModel now rest).2.2)
  | TcpMsg.Pong t0 :: rest =>
    (PollOutcome.ok (ConnectionEvent.Stats (pongStats now t0)), rest, [])
  | TcpMsg.ConnectRequest _ _ _ :: rest => pollModel now rest
  | TcpMsg.ConnectResponse _ :: rest => pollModel now rest

/-- Repeated polling of a whole inbound stream until EOF: all connection
events yielded and all events pushed onto the reliable outgoing queue. -/
def pollAll (now : Nat) {M : Type} :
    List (TcpMsg M) → List (ConnectionEvent M) × List (OutgoingEvent M)
  | [] => ([], [OutgoingEvent.ClosedNotify])
  | TcpMsg.Msg sid m :: rest =>
    ((ConnectionEvent.Msg sid m) :: (pollAll now rest).1, (pollAll now rest).2)
  | TcpMsg.Ping t :: rest =>
    ((pollAll now rest).1, OutgoingEvent.Msg (TcpMsg.Pong t) :: (pollAll now rest).2)
  | TcpMsg.Pong t0 :: rest =>
    ((ConnectionEvent.Stats (pongStats now t0)) :: (pollAll now rest).1, (pollAll now rest).2)
  | TcpMsg.ConnectRequest _ _ _ :: rest => pollAll now rest
  | TcpMsg.ConnectResponse _ :: rest => pollAll now rest

/-- Tests whether a frame is Ping(t). -/
def isPingFrame (t : Nat) {M : Type} : TcpMsg M → Bool
  | TcpMsg.Ping t' => t' == t
  | _ => false

/-- Tests whether an outgoing-queue event is a Pong(t) message. -/
def isPongOut (t : Nat) {M : Type} : OutgoingEvent M → Bool
  | OutgoingEvent.Msg (TcpMsg.Pong t') => t' == t
  | _ => false

end Tcp

/-! ## Association-list lemmas -/

section AListLemmas

variable {α : Type}

theorem alistLookup_insert_self (k : Nat) (v : α) (l : List (Nat × α)) :
    alistLookup k (alistInsert k v l) = some v := by
  induction l with
  | nil => simp [alistInsert, alistLookup]
  | cons p rest ih =>
    obtain ⟨k', v'⟩ := p
    by_cases h : k' = k <;> simp [alistInsert, alistLookup, h, ih]

theorem alistLookup_insert_ne (k k' : Nat) (v : α) (l : List (Nat × α)) (h : k' ≠ k) :
    alistLookup k' (alistInsert k v l) = alistLookup k' l := by
  have hkk : k ≠ k' := Ne.symm h
  induction l with
  | nil => simp [alistInsert, alistLookup, hkk]
  | cons p rest ih =>
    obtain ⟨k0, v0⟩ := p
    by_cases hk : k0 = k
    · subst hk
      simp [alistInsert, alistLookup, hkk]
    · by_cases hk' : k0 = k' <;> simp [alistInsert, alistLookup, hk, hk', h, ih]

theorem alistLookup_mem {k : Nat} {v : α} {l : List (Nat × α)}
    (h : alistLookup k l = some v) : (k, v) ∈ l := by
  induction l with
  | nil => simp [alistLookup] at h
  | cons p rest ih =>
    obtain ⟨k0, v0⟩ := p
    by_cases hk : k0 = k
    · subst hk
      simp [alistLookup] at h
      simp [h]
    · simp [alistLookup, hk] at h
      exact List.mem_cons_of_mem _ (ih h)

theorem alistLookup_none_notmem {k : Nat} {l : List (Nat × α)}
    (h : alistLookup k l = none) : ∀ p ∈ l, p.1 ≠ k := by
  induction l with
  | nil => simp
  | cons q rest ih =>
    obtain ⟨k0, v0⟩ := q
    by_cases hk : k0 = k
    · subst hk
      simp [alistLookup] at h
    · simp [alistLookup, hk] at h
      intro p hp
      rcases List.mem_cons.1 hp with h1 | h2
      · rw [h1]
        exact hk
      · exact ih h p h2

theorem mem_unique_of_keysNodup {k : Nat} {a b : α} {l : List (Nat × α)}
    (hnd : (l.map Prod.fst).Nodup) (ha : (k, a) ∈ l) (hb : (k, b) ∈ l) : a = b := by
  induction l with
  | nil => simp at ha
  | cons p rest ih =>
    obtain ⟨k0, v0⟩ := p
    simp only [List.map_cons, List.nodup_cons] at hnd
    rcases List.mem_cons.1 ha with h1 | h1 <;> rcases List.mem_cons.1 hb with h2 | h2
    · simp only [Prod.mk.injEq] at h1 h2
      rw [h1.2, h2.2]
    · exfalso
      simp only [Prod.mk.injEq] at h1
      apply hnd.1
      rw [← h1.1]
      exact List.mem_map_of_mem Prod.fst h2
    · exfalso
      simp only [Prod.mk.injEq] at h2
      apply hnd.1
      rw [← h2.1]
      exact List.mem_map_of_mem Prod.fst h1
    · exact ih hnd.2 h1 h2

theorem alistLookup_of_mem_keysNodup {k : Nat} {v : α} {l : List (Nat × α)}
    (hnd : (l.map Prod.fst).Nodup) (hm : (k, v) ∈ l) : alistLookup k l = some v := by
  induction l with
  | nil => simp at hm
  | cons p rest ih =>
    obtain ⟨k0, v0⟩ := p
    simp only [List.map_cons, List.nodup_cons] at hnd
    rcases List.mem_cons.1 hm with h1 | h1
    · simp only [Prod.mk.injEq] at h1
      rw [h1.1, h1.2]
      simp [alistLookup]
    · have hne : k0 ≠ k := by
        intro hk
        subst hk
        exact hnd.1 (List.mem_map_of_mem Prod.fst h1)
      simp [alistLookup, hne]
      exact ih hnd.2 h1

theorem alistModify_eq_self {k : Nat} {f : α → α} {l : List (Nat × α)} {slot : α}
    (h : alistLookup k l = some slot) (hf : f slot = slot) : alistModify k f l = l := by
  induction l with
  | nil => simp [alistModify]
  | cons p rest ih =>
    obtain ⟨k0, v0⟩ := p
    by_cases hk : k0 = k
    · subst hk
      simp [alistLookup] at h
      subst h
      simp [alistModify, hf]
    · simp [alistLookup, hk] at h
      simp [alistModify, hk, ih h]

theorem alistModify_of_none {k : Nat} {f : α → α} {l : List (Nat × α)}
    (h : alistLookup k l = none) : alistModify k f l = l := by
  induction l with
  | nil => simp [alistModify]
  | cons p rest ih =>
    obtain ⟨k0, v0⟩ := p
    by_cases hk : k0 = k
    · subst hk
      simp [alistLookup] at h
    · simp [alistLookup, hk] at h
      simp [alistModify, hk, ih h]

theorem alistLookup_filter_of_true {k : Nat} {v : α} {l : List (Nat × α)}
    {p : Nat × α → Bool} (h : alistLookup k l = some v) (hp : p (k, v) = true) :
    alistLookup k (l.filter p) = some v := by
  induction l with
  | nil => simp [alistLookup] at h
  | cons q rest ih =>
    obtain ⟨k0, v0⟩ := q
    by_cases hk : k0 = k
    · subst hk
      simp [alistLookup] at h
      subst h
      simp [List.filter, hp, alistLookup]
    · simp [alistLookup, hk] at h
      cases hq : p (k0, v0) <;> simp [List.filter, hq, alistLookup, hk, ih h]

theorem alistLookup_filter_of_false {k : Nat} {v : α} {l : List (Nat × α)}
    {p : Nat × α → Bool} (hnd : (l.map Prod.fst).Nodup)
    (h : alistLookup k l = some v) (hp : p (k, v) = false) :
    alistLookup k (l.filter p) = none := by
  have hm : (k, v) ∈ l := alistLookup_mem h
  rw [← Option.not_isSome_iff_eq_none]
  intro hsome
  obtain ⟨w, hw⟩ := Option.isSome_iff_exists.1 hsome
  have hwmem : (k, w) ∈ l.filter p := alistLookup_mem hw
  have hwl : (k, w) ∈ l := List.mem_of_mem_filter hwmem
  have : w = v := mem_unique_of_keysNodup hnd hwl hm
  subst this
  have := List.of_mem_filter hwmem
  rw [hp] at this
  exact Bool.noConfusion this

end AListLemmas

open SimpleLocalStorage

/-! ## Characterisation of the actions emitted by each tick loop -/

theorem actionDataKey_mkDataAction (r k : Nat) (slot : KeySlotData) :
    actionDataKey (mkDataAction r k slot) = some k := by
  cases h : slot.value <;> simp [mkDataAction, h, actionDataKey]

theorem actionSubKey_mkDataAction (r k : Nat) (slot : KeySlotData) :
    actionSubKey (mkDataAction r k slot) = none := by
  cases h : slot.value <;> simp [mkDataAction, h, actionSubKey]

theorem actionKey_mkDataAction (r k : Nat) (slot : KeySlotData) :
    actionKey (mkDataAction r k slot) = some k := by
  cases h : slot.value <;> simp [mkDataAction, h, actionKey]

theorem actionSubKey_mkSubAction (r k : Nat) (slot : KeySlotSubscribe) :
    actionSubKey (mkSubAction r k slot) = some k := by
  cases h : slot.sub <;> simp [mkSubAction, h, actionSubKey]

theorem actionDataKey_mkSubAction (r k : Nat) (slot : KeySlotSubscribe) :
    actionDataKey (mkSubAction r k slot) = none := by
  cases h : slot.sub <;> simp [mkSubAction, h, actionDataKey]

theorem actionKey_mkSubAction (r k : Nat) (slot : KeySlotSubscribe) :
    actionKey (mkSubAction r k slot) = some k := by
  cases h : slot.sub <;> simp [mkSubAction, h, actionKey]

/-- Every action of the data-resend loop comes from an unacked data slot. -/
theorem mem_dataResendActs {seed : Nat} {l : List (Nat × KeySlotData)} {a : LocalStorageAction}
    (h : a ∈ dataResendActs seed l) :
    ∃ p ∈ l, ∃ r, p.2.acked = false ∧ a = mkDataAction r p.1 p.2 := by
  induction l generalizing seed with
  | nil => simp [dataResendActs] at h
  | cons q rest ih =>
    obtain ⟨k, slot⟩ := q
    by_cases hq : slot.acked
    · simp only [dataResendActs, hq, if_pos] at h
      obtain ⟨p, hp, hr⟩ := ih h
      exact ⟨p, List.mem_cons_of_mem _ hp, hr⟩
    · simp only [dataResendActs, hq, if_neg, Bool.false_eq_true, not_false_iff] at h
      rcases List.mem_cons.1 h with h1 | h1
      · exact ⟨(k, slot), List.mem_cons_self _ _, seed,
          Bool.eq_false_iff.2 hq, h1⟩
      · obtain ⟨p, hp, hr⟩ := ih h1
        exact ⟨p, List.mem_cons_of_mem _ hp, hr⟩

/-- Every action of the subscribe-resend loop comes from an unacked
subscribe slot. -/
theorem mem_subResendActs {seed : Nat} {l : List (Nat × KeySlotSubscribe)}
    {a : LocalStorageAction} (h : a ∈ subResendActs seed l) :
    ∃ p ∈ l, ∃ r, p.2.acked = false ∧ a = mkSubAction r p.1 p.2 := by
  induction l generalizing seed with
  | nil => simp [subResendActs] at h
  | cons q rest ih =>
    obtain ⟨k, slot⟩ := q
    by_cases hq : slot.acked
    · simp only [subResendActs, hq, if_pos] at h
      obtain ⟨p, hp, hr⟩ := ih h
      exact ⟨p, List.mem_cons_of_mem _ hp, hr⟩
    · simp only [subResendActs, hq, if_neg, Bool.false_eq_true, not_false_iff] at h
      rcases List.mem_cons.1 h with h1 | h1
      · exact ⟨(k, slot), List.mem_cons_self _ _, seed,
          Bool.eq_false_iff.2 hq, h1⟩
      · obtain ⟨p, hp, hr⟩ := ih h1
        exact ⟨p, List.mem_cons_of_mem _ hp, hr⟩

/-- Every action of the data-sync loop is a Set from an acked, due data
slot that holds a value. -/
theorem mem_dataSyncActs {now ms seed : Nat} {l : List (Nat × KeySlotData)}
    {a : LocalStorageAction} (h : a ∈ dataSyncActs now ms seed l) :
    ∃ p ∈ l, ∃ r v, p.2.acked = true ∧ ms ≤ u64sub now p.2.last_sync ∧
      p.2.value = some v ∧
      a = ⟨.Set r p.1 v p.2.version p.2.ex, .ToKey (p.1 % 2^32)⟩ := by
  induction l generalizing seed with
  | nil => simp [dataSyncActs] at h
  | cons q rest ih =>
    obtain ⟨k, slot⟩ := q
    by_cases hc : slot.acked ∧ ms ≤ u64sub now slot.last_sync
    · cases hv : slot.value with
      | some v =>
        simp only [dataSyncActs, hc, if_pos, hv] at h
        rcases List.mem_cons.1 h with h1 | h1
        · exact ⟨(k, slot), List.mem_cons_self _ _, seed, v, hc.1, hc.2, hv, h1⟩
        · obtain ⟨p, hp, hr⟩ := ih h1
          exact ⟨p, List.mem_cons_of_mem _ hp, hr⟩
      | none =>
        simp only [dataSyncActs, hc, if_pos, hv] at h
        obtain ⟨p, hp, hr⟩ := ih h
        exact ⟨p, List.mem_cons_of_mem _ hp, hr⟩
    · simp only [dataSyncActs, hc, if_neg, not_false_iff] at h
      obtain ⟨p, hp, hr⟩ := ih h
      exact ⟨p, List.mem_cons_of_mem _ hp, hr⟩

/-- Every action of the subscribe-sync loop is a Sub from an acked, due
subscribe slot with sub set. -/
theorem mem_subSyncActs {now ms seed : Nat} {l : List (Nat × KeySlotSubscribe)}
    {a : LocalStorageAction} (h : a ∈ subSyncActs now ms seed l) :
    ∃ p ∈ l, ∃ r, p.2.acked = true ∧ ms ≤ u64sub now p.2.last_sync ∧
      p.2.sub = true ∧ a = ⟨.Sub r p.1 p.2.ex, .ToKey (p.1 % 2^32)⟩ := by
  induction l generalizing seed with
  | nil => simp [subSyncActs] at h
  | cons q rest ih =>
    obtain ⟨k, slot⟩ := q
    by_cases hc : slot.acked ∧ ms ≤ u64sub now slot.last_sync
    · cases hv : slot.sub with
      | true =>
        simp only [subSyncActs, hc, if_pos, hv] at h
        rcases List.mem_cons.1 h with h1 | h1
        · exact ⟨(k, slot), List.mem_cons_self _ _, seed, hc.1, hc.2, hv, h1⟩
        · obtain ⟨p, hp, hr⟩ := ih h1
          exact ⟨p, List.mem_cons_of_mem _ hp, hr⟩
      | false =>
        simp only [subSyncActs, hc, if_pos, hv] at h
        obtain ⟨p, hp, hr⟩ := ih h
        exact ⟨p, List.mem_cons_of_mem _ hp, hr⟩
    · simp only [subSyncActs, hc, if_neg, not_false_iff] at h
      obtain ⟨p, hp, hr⟩ := ih h
      exact ⟨p, List.mem_cons_of_mem _ hp, hr⟩

/-! ## Filter lemmas for the tick action lists -/

theorem filter_dataResendActs_nil {k : Nat} (seed : Nat) {l : List (Nat × KeySlotData)}
    (hk : ∀ p ∈ l, p.1 ≠ k) :
    (dataResendActs seed l).filter (fun a => actionDataKey a == some k) = [] := by
  refine List.filter_eq_nil_iff.2 fun a ha => ?_
  obtain ⟨p, hp, r, _, rfl⟩ := mem_dataResendActs ha
  simp [actionDataKey_mkDataAction, hk p hp]

theorem filter_dataResendActs_singleton {k : Nat} {slot : KeySlotData} (seed : Nat)
    {l : List (Nat × KeySlotData)} (hnd : (l.map Prod.fst).Nodup)
    (hm : (k, slot) ∈ l) (hna : slot.acked = false) :
    ∃ r, (dataResendActs seed l).filter (fun a => actionDataKey a == some k) =
      [mkDataAction r k slot] := by
  induction l generalizing seed with
  | nil => simp at hm
  | cons q rest ih =>
    obtain ⟨k0, s0⟩ := q
    simp only [List.map_cons, List.nodup_cons] at hnd
    rcases List.mem_cons.1 hm with h1 | h1
    · simp only [Prod.mk.injEq] at h1
      obtain ⟨hke, hse⟩ := h1
      subst hke
      subst hse
      have hrest : ∀ p ∈ rest, p.1 ≠ k := by
        intro p hp he
        exact hnd.1 (he ▸ List.mem_map_of_mem Prod.fst hp)
      refine ⟨seed, ?_⟩
      simp only [dataResendActs, hna, Bool.false_eq_true, if_false]
      rw [List.filter_cons_of_pos (by simp [actionDataKey_mkDataAction])]
      rw [filter_dataResendActs_nil _ hrest]
    · have hke : k0 ≠ k := by
        intro he
        subst he
        exact hnd.1 (List.mem_map_of_mem Prod.fst h1)
      by_cases hs0 : s0.acked
      · simp only [dataResendActs, hs0, if_true]
        exact ih _ hnd.2 h1
      · simp only [dataResendActs, hs0, Bool.false_eq_true, if_false]
        rw [List.filter_cons_of_neg (by simp [actionDataKey_mkDataAction, hke])]
        exact ih _ hnd.2 h1

theorem filter_dataSyncActs_nil_of_unacked {now ms k : Nat} {slot : KeySlotData} (seed : Nat)
    {l : List (Nat × KeySlotData)} (hnd : (l.map Prod.fst).Nodup)
    (hm : (k, slot) ∈ l) (hna : slot.acked = false) :
    (dataSyncActs now ms seed l).filter (fun a => actionDataKey a == some k) = [] := by
  refine List.filter_eq_nil_iff.2 fun a ha => ?_
  obtain ⟨p, hp, r, v, hack, _, _, rfl⟩ := mem_dataSyncActs ha
  simp only [actionDataKey, beq_iff_eq, Option.some.injEq]
  intro he
  subst he
  have : p.2 = slot := mem_unique_of_keysNodup hnd (by exact hp) hm
  rw [this] at hack
  rw [hna] at hack
  exact Bool.noConfusion hack

theorem filter_subActs_dataKey_nil {k : Nat} (seed : Nat)
    {l : List (Nat × KeySlotSubscribe)} :
    (subResendActs seed l).filter (fun a => actionDataKey a == some k) = [] := by
  refine List.filter_eq_nil_iff.2 fun a ha => ?_
  obtain ⟨p, _, r, _, rfl⟩ := mem_subResendActs ha
  simp [actionDataKey_mkSubAction]

theorem filter_subSyncActs_dataKey_nil {now ms k : Nat} (seed : Nat)
    {l : List (Nat × KeySlotSubscribe)} :
    (subSyncActs now ms seed l).filter (fun a => actionDataKey a == some k) = [] := by
  refine List.filter_eq_nil_iff.2 fun a ha => ?_
  obtain ⟨p, _, r, _, _, _, rfl⟩ := mem_subSyncActs ha
  simp [actionDataKey]

theorem filter_subResendActs_nil {k : Nat} (seed : Nat)
    {l : List (Nat × KeySlotSubscribe)} (hk : ∀ p ∈ l, p.1 ≠ k) :
    (subResendActs seed l).filter (fun a => actionSubKey a == some k) = [] := by
  refine List.filter_eq_nil_iff.2 fun a ha => ?_
  obtain ⟨p, hp, r, _, rfl⟩ := mem_subResendActs ha
  simp [actionSubKey_mkSubAction, hk p hp]

theorem filter_subResendActs_singleton {k : Nat} {slot : KeySlotSubscribe} (seed : Nat)
    {l : List (Nat × KeySlotSubscribe)} (hnd : (l.map Prod.fst).Nodup)
    (hm : (k, slot) ∈ l) (hna : slot.acked = false) :
    ∃ r, (subResendActs seed l).filter (fun a => actionSubKey a == some k) =
      [mkSubAction r k slot] := by
  induction l generalizing seed with
  | nil => simp at hm
  | cons q rest ih =>
    obtain ⟨k0, s0⟩ := q
    simp only [List.map_cons, List.nodup_cons] at hnd
    rcases List.mem_cons.1 hm with h1 | h1
    · simp only [Prod.mk.injEq] at h1
      obtain ⟨hke, hse⟩ := h1
      subst hke
      subst hse
      have hrest : ∀ p ∈ rest, p.1 ≠ k := by
        intro p hp he
        exact hnd.1 (he ▸ List.mem_map_of_mem Prod.fst hp)
      refine ⟨seed, ?_⟩
      simp only [subResendActs, hna, Bool.false_eq_true, if_false]
      rw [List.filter_cons_of_pos (by simp [actionSubKey_mkSubAction])]
      rw [filter_subResendActs_nil _ hrest]
    · have hke : k0 ≠ k := by
        intro he
        subst he
        exact hnd.1 (List.mem_map_of_mem Prod.fst h1)
      by_cases hs0 : s0.acked
      · simp only [subResendActs, hs0, if_true]
        exact ih _ hnd.2 h1
      · simp only [subResendActs, hs0, Bool.false_eq_true, if_false]
        rw [List.filter_cons_of_neg (by simp [actionSubKey_mkSubAction, hke])]
        exact ih _ hnd.2 h1

theorem filter_subSyncActs_nil_of_unacked {now ms k : Nat} {slot : KeySlotSubscribe}
    (seed : Nat) {l : List (Nat × KeySlotSubscribe)} (hnd : (l.map Prod.fst).Nodup)
    (hm : (k, slot) ∈ l) (hna : slot.acked = false) :
    (subSyncActs now ms seed l).filter (fun a => actionSubKey a == some k) = [] := by
  refine List.filter_eq_nil_iff.2 fun a ha => ?_
  obtain ⟨p, hp, r, hack, _, _, rfl⟩ := mem_subSyncActs ha
  simp only [actionSubKey, beq_iff_eq, Option.some.injEq]
  intro he
  subst he
  have : p.2 = slot := mem_unique_of_keysNodup hnd (by exact hp) hm
  rw [this] at hack
  rw [hna] at hack
  exact Bool.noConfusion hack

theorem filter_dataResendActs_subKey_nil {k : Nat} (seed : Nat)
    {l : List (Nat × KeySlotData)} :
    (dataResendActs seed l).filter (fun a => actionSubKey a == some k) = [] := by
  refine List.filter_eq_nil_iff.2 fun a ha => ?_
  obtain ⟨p, _, r, _, rfl⟩ := mem_dataResendActs ha
  simp [actionSubKey_mkDataAction]

theorem filter_dataSyncActs_subKey_nil {now ms k : Nat} (seed : Nat)
    {l : List (Nat × KeySlotData)} :
    (dataSyncActs now ms seed l).filter (fun a => actionSubKey a == some k) = [] := by
  refine List.filter_eq_nil_iff.2 fun a ha => ?_
  obtain ⟨p, _, r, v, _, _, _, rfl⟩ := mem_dataSyncActs ha
  simp [actionSubKey]

/-! ## Claim C1: ack gating and resync timing -/

/-- C1, counterexample: sync_each_ms = 10000; set(1,[1],None) at
now_ms = 0; the matching SetAck(0, 1, 0, true) is delivered at time 5000
(SetAck processing does not read the clock, so the state is the same
whatever the delivery time); the tick at now_ms = 10000 satisfies
10000 < last_ack_time + sync_each_ms = 5000 + 10000, yet it enqueues a
Set action for key 1 - because the resync deadline is measured from the
slot's last_sync (0 since the mutation), not from the ack time.  This
refutes the claim that no action is enqueued for k until
now ≥ last_ack_time + sync_each_ms. -/
theorem c1_resync_counterexample :
    (10000 : Nat) < 5000 + 10000 ∧
    tickNewActions 10000 (onEvent 2 (.SetAck 0 1 0 true)
        (SimpleLocalStorage.set 0 1 [1] none (SimpleLocalStorage.new 10000))) =
      [⟨.Set 1 1 [1] 0 none, .ToKey 1⟩] := by
  exact ⟨by decide, by decide⟩

/-- C1, amended: after set(k, v) and a matching successful SetAck the slot
is acked, and a tick at clock now enqueues no action for k as long as
now - slot.last_sync < sync_each_ms, where last_sync is 0 since the
mutation and is reset to the tick clock at each resync (the deadline is
not measured from the ack time); a SetAck whose version differs from the
slot's version, or whose success flag is false, leaves the entire state
unchanged. -/
theorem c1_ack_gates_resend (s : SimpleLocalStorage) (now fromNode req k v : Nat)
    (slot : KeySlotData) (hnd : (s.data.map Prod.fst).Nodup)
    (hk : alistLookup k s.data = some slot) :
    (slot.acked = true → alistLookup k s.subs = none →
      u64sub now slot.last_sync < s.sync_each_ms →
      ∀ a ∈ tickNewActions now s, actionKey a ≠ some k) ∧
    onEvent fromNode (.SetAck req k v false) s = s ∧
    (v ≠ slot.version → onEvent fromNode (.SetAck req k v true) s = s) := by
  refine ⟨?_, by simp [onEvent], ?_⟩
  · intro hack hsub hlt a ha hkey
    have hmem : (k, slot) ∈ s.data := alistLookup_mem hk
    rcases List.mem_append.1 ha with h123 | h4
    rotate_left
    · obtain ⟨p, hp, r, _, _, _, rfl⟩ := mem_subSyncActs h4
      simp only [actionKey, Option.some.injEq] at hkey
      exact alistLookup_none_notmem hsub p hp hkey
    rcases List.mem_append.1 h123 with h12 | h3
    rotate_left
    · obtain ⟨p, hp, r, v', _, hdue, _, rfl⟩ := mem_dataSyncActs h3
      simp only [actionKey, Option.some.injEq] at hkey
      have : p.2 = slot := mem_unique_of_keysNodup hnd (by rw [← hkey]; exact hp) hmem
      rw [this] at hdue
      exact absurd hdue (Nat.not_le_of_lt hlt)
    rcases List.mem_append.1 h12 with h1 | h2
    · obtain ⟨p, hp, r, hpa, rfl⟩ := mem_dataResendActs h1
      rw [actionKey_mkDataAction] at hkey
      have hpk : p.1 = k := Option.some.inj hkey
      have : p.2 = slot := mem_unique_of_keysNodup hnd (by rw [← hpk]; exact hp) hmem
      rw [this, hack] at hpa
      exact Bool.noConfusion hpa
    · obtain ⟨p, hp, r, _, rfl⟩ := mem_subResendActs h2
      rw [actionKey_mkSubAction] at hkey
      exact alistLookup_none_notmem hsub p hp (Option.some.inj hkey)
  · intro hv
    have hne : slot.version ≠ v := fun h => hv h.symm
    have hfix : applySetAck v slot = slot := by
      simp [applySetAck, hne]
    simp only [onEvent, if_true]
    rw [alistModify_eq_self hk hfix]

/-- Concrete instantiation of the amended C1 theorem: the state after
set(1,[1],None) at now 0 and its matching SetAck, ticked at now = 5000
(within the sync window measured from last_sync = 0). -/
theorem c1_ack_gates_resend_witness :
    (∀ a ∈ tickNewActions 5000 (onEvent 2 (.SetAck 0 1 0 true)
        (SimpleLocalStorage.set 0 1 [1] none (SimpleLocalStorage.new 10000))),
      actionKey a ≠ some 1) ∧
    onEvent 2 (.SetAck 3 1 7 false) (onEvent 2 (.SetAck 0 1 0 true)
        (SimpleLocalStorage.set 0 1 [1] none (SimpleLocalStorage.new 10000))) =
      onEvent 2 (.SetAck 0 1 0 true)
        (SimpleLocalStorage.set 0 1 [1] none (SimpleLocalStorage.new 10000)) ∧
    onEvent 2 (.SetAck 3 1 7 true) (onEvent 2 (.SetAck 0 1 0 true)
        (SimpleLocalStorage.set 0 1 [1] none (SimpleLocalStorage.new 10000))) =
      onEvent 2 (.SetAck 0 1 0 true)
        (SimpleLocalStorage.set 0 1 [1] none (SimpleLocalStorage.new 10000)) := by
  have h := c1_ack_gates_resend
    (onEvent 2 (.SetAck 0 1 0 true)
      (SimpleLocalStorage.set 0 1 [1] none (SimpleLocalStorage.new 10000)))
    5000 2 3 1 7 ⟨some [1], none, 0, 0, true⟩ (by decide) (by decide)
  exact ⟨h.1 rfl rfl (by decide), h.2.1, h.2.2 (by decide)⟩

/-! ## Claim C2: one retransmit action per unacked slot per tick -/

/-- C2: in any state whose slot maps have no duplicate keys, a single tick
emits, among all its newly enqueued actions, exactly one data action
(Set or Del) for each unacked data slot - a Set(req, k, value, version, ex)
when the slot holds a value and a Del(req, k, version) otherwise, routed
ToKey(k as u32) - and exactly one subscribe action (Sub or Unsub) for each
unacked subscribe slot - Sub(req, k, ex) when sub = true and Unsub(req, k)
otherwise, routed ToKey(k as u32); no further action for that slot is
emitted in the same tick. -/
theorem c2_tick_unacked_actions (s : SimpleLocalStorage) (now : Nat)
    (hd : (s.data.map Prod.fst).Nodup) (hs : (s.subs.map Prod.fst).Nodup) :
    (∀ k slot, (k, slot) ∈ s.data → slot.acked = false →
      ∃ r, (tickNewActions now s).filter (fun a => actionDataKey a == some k) =
        [mkDataAction r k slot]) ∧
    (∀ k slot, (k, slot) ∈ s.subs → slot.acked = false →
      ∃ r, (tickNewActions now s).filter (fun a => actionSubKey a == some k) =
        [mkSubAction r k slot]) := by
  constructor
  · intro k slot hm hna
    obtain ⟨r, hr⟩ := filter_dataResendActs_singleton (k := k) s.req_id_seed hd hm hna
    refine ⟨r, ?_⟩
    unfold tickNewActions
    rw [List.filter_append, List.filter_append, List.filter_append]
    rw [hr, filter_subActs_dataKey_nil, filter_dataSyncActs_nil_of_unacked _ hd hm hna,
      filter_subSyncActs_dataKey_nil]
    simp
  · intro k slot hm hna
    obtain ⟨r, hr⟩ := filter_subResendActs_singleton (k := k)
      (dataResendSeed s.req_id_seed s.data) hs hm hna
    refine ⟨r, ?_⟩
    unfold tickNewActions
    rw [List.filter_append, List.filter_append, List.filter_append]
    rw [hr, filter_dataResendActs_subKey_nil, filter_dataSyncActs_subKey_nil,
      filter_subSyncActs_nil_of_unacked _ hs hm hna]
    simp

/-- Concrete instantiation of the C2 theorem: a state with one unacked
data slot (key 1) and one unacked subscribe slot (key 2). -/
theorem c2_tick_unacked_actions_witness :
    (∃ r, (tickNewActions 0 (subscribe 2 none
        (SimpleLocalStorage.set 0 1 [1] none (SimpleLocalStorage.new 10)))).filter
          (fun a => actionDataKey a == some 1) =
        [mkDataAction r 1 ⟨some [1], none, 0, 0, false⟩]) ∧
    (∃ r, (tickNewActions 0 (subscribe 2 none
        (SimpleLocalStorage.set 0 1 [1] none (SimpleLocalStorage.new 10)))).filter
          (fun a => actionSubKey a == some 2) =
        [mkSubAction r 2 ⟨none, 0, true, false⟩]) := by
  have h := c2_tick_unacked_actions
    (subscribe 2 none (SimpleLocalStorage.set 0 1 [1] none (SimpleLocalStorage.new 10)))
    0 (by decide) (by decide)
  exact ⟨h.1 1 ⟨some [1], none, 0, 0, false⟩ (by decide) rfl,
    h.2 2 ⟨none, 0, true, false⟩ (by decide) rfl⟩

/-! ## Claim C3: version generation -/

/-- C3, counterexample: gen_version is computed in u64 arithmetic, so the
left shift by 16 discards high bits.  Starting from a fresh agent, a first
call at now_ms = 1 yields version 65536, and the next call at the larger
clock value now_ms = 2^48 yields version 1, which is not strictly greater;
so two calls at distinct now_ms values need not return strictly increasing
versions. -/
theorem c3_gen_version_counterexample :
    (genVersion 1 (SimpleLocalStorage.new 10)).1 = 65536 ∧
    (genVersion (2^48) ((genVersion 1 (SimpleLocalStorage.new 10)).2)).1 = 1 ∧
    (1 : Nat) < 2^48 ∧ ¬ (65536 : Nat) < 1 := by
  refine ⟨by decide, by decide, by decide, by decide⟩

/-- C3, amended: gen_version returns ((now_ms * 2^16 + seed16) mod 2^64)
with the 16-bit seed incremented with wrap-around; versions are strictly
increasing across calls at increasing now_ms values provided now_ms stays
below 2^48 (no u64 overflow of the shift), and calls sharing one now_ms
value but using distinct 16-bit seeds (as up to 65 536 consecutive calls
do) return pairwise distinct versions. -/
theorem c3_gen_version_amended (now1 now2 s1 s2 now a b : Nat)
    (h1 : s1 < 2^16) (h2 : s2 < 2^16) (hlt : now1 < now2) (hub : now2 < 2^48)
    (ha : a < 2^16) (hb : b < 2^16) (hab : a ≠ b) :
    genVersionVal now1 s1 < genVersionVal now2 s2 ∧
    genVersionVal now a ≠ genVersionVal now b ∧
    ∀ st : SimpleLocalStorage,
      ((genVersion now st).2).version_seed = (st.version_seed + 1) % 2^16 := by
  have e16 : (2 : Nat)^16 = 65536 := by norm_num
  have e48 : (2 : Nat)^48 = 281474976710656 := by norm_num
  have e64 : (2 : Nat)^64 = 18446744073709551616 := by norm_num
  refine ⟨?_, ?_, fun st => rfl⟩
  · unfold genVersionVal
    rw [e16, e64]
    rw [e16] at h1 h2
    rw [e48] at hub
    omega
  · unfold genVersionVal
    rw [e16, e64]
    rw [e16] at ha hb
    omega

/-- Concrete instantiation of the amended C3 theorem. -/
theorem c3_gen_version_amended_witness :
    genVersionVal 0 0 < genVersionVal 1 1 ∧
    genVersionVal 7 0 ≠ genVersionVal 7 1 ∧
    ∀ st : SimpleLocalStorage,
      ((genVersion 7 st).2).version_seed = (st.version_seed + 1) % 2^16 := by
  have h := c3_gen_version_amended 0 1 0 1 7 0 1 (by decide) (by decide) (by decide)
    (by decide) (by decide) (by decide) (by decide)
  exact h

/-! ## Claim C4: set -/

/-- C4: set(key, value, ex) installs the slot
(Some value, ex, fresh version, last_sync = 0, acked = false) at key,
leaving every other key untouched, appends exactly one
Set(req, key, value, version, ex) action routed ToKey(key as u32), and
notifies the awaker once; and in the concrete S2 trace - set(1,[1],None)
at now_ms = 0, its SetAck, then set(1,[2],None) at now_ms = 1000 - the
second enqueued action is Set(1, 1, [2], 65536001, None) routed
ToKey(1). -/
theorem c4_set_effect (s : SimpleLocalStorage) (now key : Nat) (value : List Nat)
    (ex : Option Nat) :
    alistLookup key (SimpleLocalStorage.set now key value ex s).data =
      some ⟨some value, ex, genVersionVal now s.version_seed, 0, false⟩ ∧
    (SimpleLocalStorage.set now key value ex s).output_events = s.output_events ++
      [⟨.Set s.req_id_seed key value (genVersionVal now s.version_seed) ex,
        .ToKey (key % 2^32)⟩] ∧
    (SimpleLocalStorage.set now key value ex s).notify_count = s.notify_count + 1 ∧
    (∀ k', k' ≠ key → alistLookup k' (SimpleLocalStorage.set now key value ex s).data =
      alistLookup k' s.data) ∧
    (SimpleLocalStorage.set 1000 1 [2] none (onEvent 2 (.SetAck 0 1 0 true)
        (SimpleLocalStorage.set 0 1 [1] none (SimpleLocalStorage.new 10000)))).output_events =
      [⟨.Set 0 1 [1] 0 none, .ToKey 1⟩, ⟨.Set 1 1 [2] 65536001 none, .ToKey 1⟩] := by
  refine ⟨?_, rfl, rfl, ?_, by decide⟩
  · simp [SimpleLocalStorage.set, alistLookup_insert_self]
  · intro k' hk
    simp [SimpleLocalStorage.set, alistLookup_insert_ne _ _ _ _ hk]

/-- Concrete instantiation of the C4 theorem. -/
theorem c4_set_effect_witness :
    alistLookup 1 (SimpleLocalStorage.set 0 1 [1] none (SimpleLocalStorage.new 10000)).data =
      some ⟨some [1], none, 0, 0, false⟩ ∧
    alistLookup 2 (SimpleLocalStorage.set 0 1 [1] none (SimpleLocalStorage.new 10000)).data =
      alistLookup 2 (SimpleLocalStorage.new 10000).data := by
  have h := c4_set_effect (SimpleLocalStorage.new 10000) 0 1 [1] none
  exact ⟨h.1, h.2.2.2.1 2 (by decide)⟩

/-! ## Claim C5: get timeouts -/

/-- The request ids collected by the timeout scan of tick. -/
theorem mem_timeout_reqs {now2 req : Nat} {s : SimpleLocalStorage}
    {c : Nat × GetResult} (hc : c ∈ tickTimeoutCallbacks now2 s) (he : c.1 = req) :
    ∃ p ∈ s.get_queue, p.1 = req ∧ decide (p.2 ≤ now2) = true := by
  unfold tickTimeoutCallbacks at hc
  obtain ⟨r, hr, rfl⟩ := List.mem_map.1 hc
  obtain ⟨p, hp, rfl⟩ := List.mem_map.1 hr
  refine ⟨p, List.mem_of_mem_filter hp, he, ?_⟩
  simpa using List.of_mem_filter hp

/-- C5: a get(k, cb, t) issued at clock t0 installs its GetSlot with
deadline (t0 + t) as u64 under the allocated ReqId; any tick at clock
now ≥ deadline removes the GetSlot and appends exactly one
(req, Err(Timeout)) callback record; a tick at clock now < deadline keeps
the slot and fires no callback for req; and once no GetSlot for req
exists, a GetAck with that ReqId leaves the state unchanged and no tick
fires a callback for req. -/
theorem c5_get_timeout (s : SimpleLocalStorage) (now key t now2 req dl fromNode k2 : Nat)
    (v : Option (List Nat × Nat × Nat)) (hnd : (s.get_queue.map Prod.fst).Nodup) :
    alistLookup s.req_id_seed (SimpleLocalStorage.get now key t s).get_queue =
      some ((now + t) % 2^64) ∧
    (alistLookup req s.get_queue = some dl → dl ≤ now2 →
      alistLookup req (tick now2 s).get_queue = none ∧
      (tickTimeoutCallbacks now2 s).countP (fun c => c.1 == req) = 1 ∧
      (req, GetResult.err SimpleKeyValueGetError.Timeout) ∈ tickTimeoutCallbacks now2 s ∧
      (tick now2 s).get_callbacks = s.get_callbacks ++ tickTimeoutCallbacks now2 s) ∧
    (alistLookup req s.get_queue = some dl → now2 < dl →
      alistLookup req (tick now2 s).get_queue = some dl ∧
      ∀ c ∈ tickTimeoutCallbacks now2 s, c.1 ≠ req) ∧
    (alistLookup req s.get_queue = none →
      onEvent fromNode (.GetAck req k2 v) s = s ∧
      ∀ c ∈ tickTimeoutCallbacks now2 s, c.1 ≠ req) := by
  refine ⟨?_, fun hq hle => ?_, fun hq hgt => ?_, fun hq => ?_⟩
  · simp only [SimpleLocalStorage.get]
    exact alistLookup_insert_self _ _ _
  · have hqueue : (tick now2 s).get_queue =
        s.get_queue.filter (fun p => !decide (p.2 ≤ now2)) := rfl
    have hreqs : req ∈ (s.get_queue.filter (fun p => decide (p.2 ≤ now2))).map Prod.fst := by
      refine List.mem_map_of_mem Prod.fst (List.mem_filter.2 ⟨alistLookup_mem hq, ?_⟩)
      simpa using hle
    have hreqsnd : ((s.get_queue.filter (fun p => decide (p.2 ≤ now2))).map Prod.fst).Nodup :=
      ((List.filter_sublist s.get_queue).map Prod.fst).nodup hnd
    refine ⟨?_, ?_, ?_, rfl⟩
    · rw [hqueue]
      refine alistLookup_filter_of_false hnd hq ?_
      simp [hle]
    · unfold tickTimeoutCallbacks
      rw [List.countP_map]
      have : ((fun c : Nat × GetResult => c.1 == req) ∘
          (fun r => (r, GetResult.err SimpleKeyValueGetError.Timeout))) =
          (fun r => r == req) := rfl
      rw [this]
      exact List.count_eq_one_of_mem hreqsnd hreqs
    · unfold tickTimeoutCallbacks
      exact List.mem_map_of_mem _ hreqs
  · constructor
    · have hqueue : (tick now2 s).get_queue =
        s.get_queue.filter (fun p => !decide (p.2 ≤ now2)) := rfl
      rw [hqueue]
      refine alistLookup_filter_of_true hq ?_
      simp [Nat.not_le_of_lt hgt]
    · intro c hc he
      obtain ⟨p, hp, hp1, hp2⟩ := mem_timeout_reqs hc he
      have hpd : p.2 = dl := by
        have : (req, p.2) ∈ s.get_queue := by
          rw [← hp1]
          exact hp
        exact mem_unique_of_keysNodup hnd this (alistLookup_mem hq)
      rw [hpd] at hp2
      simp at hp2
      exact absurd hp2 (Nat.not_le_of_lt hgt)
  · refine ⟨by simp [onEvent, hq], fun c hc he => ?_⟩
    obtain ⟨p, hp, hp1, _⟩ := mem_timeout_reqs hc he
    exact alistLookup_none_notmem hq p hp hp1

/-- Concrete instantiation of the C5 theorem: get(1, cb, 1000) at t0 = 0,
ticked at 1001 (fires), at 500 (does not fire), and a GetAck for an
unknown ReqId. -/
theorem c5_get_timeout_witness :
    alistLookup 0 (SimpleLocalStorage.get 0 1 1000 (SimpleLocalStorage.new 10)).get_queue =
      some 1000 ∧
    alistLookup 0 (tick 1001 (SimpleLocalStorage.get 0 1 1000
      (SimpleLocalStorage.new 10))).get_queue = none ∧
    (tickTimeoutCallbacks 1001 (SimpleLocalStorage.get 0 1 1000
      (SimpleLocalStorage.new 10))).countP (fun c => c.1 == 0) = 1 ∧
    alistLookup 0 (tick 500 (SimpleLocalStorage.get 0 1 1000
      (SimpleLocalStorage.new 10))).get_queue = some 1000 ∧
    onEvent 2 (.GetAck 7 1 none) (SimpleLocalStorage.get 0 1 1000
      (SimpleLocalStorage.new 10)) = SimpleLocalStorage.get 0 1 1000
      (SimpleLocalStorage.new 10) := by
  have h0 := c5_get_timeout (SimpleLocalStorage.new 10) 0 1 1000 0 0 0 2 1 none (by decide)
  have h1 := c5_get_timeout (SimpleLocalStorage.get 0 1 1000 (SimpleLocalStorage.new 10))
    0 1 1000 1001 0 1000 2 1 none (by decide)
  have h2 := c5_get_timeout (SimpleLocalStorage.get 0 1 1000 (SimpleLocalStorage.new 10))
    0 1 1000 500 0 1000 2 1 none (by decide)
  have h3 := c5_get_timeout (SimpleLocalStorage.get 0 1 1000 (SimpleLocalStorage.new 10))
    0 1 1000 0 7 0 2 1 none (by decide)
  exact ⟨h0.1, (h1.2.1 (by decide) (by decide)).1, (h1.2.1 (by decide) (by decide)).2.1,
    (h2.2.2.1 (by decide) (by decide)).1, (h3.2.2.2 (by decide)).1⟩

/-! ## Claim C9: OnKeySet / OnKeyDel fan-out -/

/-- C9: on_event(from, OnKeySet(req, key, value, version, source)) appends
exactly one OnKeySetAck(req) action routed ToNode(from), and records a
handler invocation (key, Some value, version, source) exactly when a
subscribe slot for key exists with sub = true; symmetrically
OnKeyDel appends OnKeyDelAck(req) routed ToNode(from) and records
(key, None, version, source) under the same condition. -/
theorem c9_on_key_events (s : SimpleLocalStorage) (fromNode req key version source : Nat)
    (value : List Nat) :
    (onEvent fromNode (.OnKeySet req key value version source) s).output_events =
      s.output_events ++ [⟨.OnKeySetAck req, .ToNode fromNode⟩] ∧
    (onEvent fromNode (.OnKeySet req key value version source) s).handler_calls =
      s.handler_calls ++ (match alistLookup key s.subs with
        | some sl => if sl.sub then [(key, some value, version, source)] else []
        | none => []) ∧
    (onEvent fromNode (.OnKeyDel req key version source) s).output_events =
      s.output_events ++ [⟨.OnKeyDelAck req, .ToNode fromNode⟩] ∧
    (onEvent fromNode (.OnKeyDel req key version source) s).handler_calls =
      s.handler_calls ++ (match alistLookup key s.subs with
        | some sl => if sl.sub then [(key, none, version, source)] else []
        | none => []) := by
  cases h : alistLookup key s.subs with
  | none => simp [onEvent, h]
  | some sl => cases hs : sl.sub <;> simp [onEvent, h, hs]

/-! ## Claim C10: silent no-ops still consume a request id -/

/-- C10: del on an absent key and unsubscribe on an absent key leave the
whole state unchanged except for advancing the request-id counter by one
(no action, no notify, no slot change), while subscribe on an
already-subscribed key returns before generating a request id and leaves
the state completely unchanged. -/
theorem c10_silent_noops (s : SimpleLocalStorage) (key : Nat) (ex : Option Nat) :
    (alistLookup key s.data = none →
      SimpleLocalStorage.del key s = { s with req_id_seed := (s.req_id_seed + 1) % 2^64 }) ∧
    (alistLookup key s.subs = none →
      unsubscribe key s = { s with req_id_seed := (s.req_id_seed + 1) % 2^64 }) ∧
    ((alistLookup key s.subs).isSome → subscribe key ex s = s) := by
  refine ⟨fun h => ?_, fun h => ?_, fun h => ?_⟩
  · simp [SimpleLocalStorage.del, h]
  · simp [unsubscribe, h]
  · simp [subscribe, h]

/-- Concrete instantiation of the C10 theorem. -/
theorem c10_silent_noops_witness :
    SimpleLocalStorage.del 5 (SimpleLocalStorage.new 10) =
      { SimpleLocalStorage.new 10 with req_id_seed := 1 } ∧
    unsubscribe 5 (SimpleLocalStorage.new 10) =
      { SimpleLocalStorage.new 10 with req_id_seed := 1 } ∧
    subscribe 1 none (subscribe 1 none (SimpleLocalStorage.new 10)) =
      subscribe 1 none (SimpleLocalStorage.new 10) := by
  have h1 := c10_silent_noops (SimpleLocalStorage.new 10) 5 none
  have h2 := c10_silent_noops (subscribe 1 none (SimpleLocalStorage.new 10)) 1 none
  exact ⟨h1.1 rfl, h1.2.1 rfl, h2.2.2 (by decide)⟩

/-! ## Claim C6: vnet create_outgoing error paths -/

/-- C6, counterexample: a fabric with a single port 0 owned by node 1,
fresh counter; create_outgoing(0, 9, 5) with to_port 5 unregistered
returns the outgoing identifier with counter 0, but the single
OutgoingErr(DestinationNotFound) event sent to the originator carries the
incoming-namespaced identifier with counter 1 - not the ConnId the call
returns.  This refutes the claim that the DestinationNotFound error event
carries the same ConnId create_outgoing returns. -/
theorem c6_destination_not_found_counterexample :
    Vnet.createOutgoing ⟨0, [(0, ⟨1, 0⟩)], []⟩ 0 9 5 =
      Vnet.CreateOutgoingResult.ok (Vnet.ConnId.fromOut Vnet.vnetProtocolId 0)
        ⟨2, [(0, ⟨1, 0⟩)], []⟩
        [(0, Vnet.VnetEventShape.OutgoingErr 9 (Vnet.ConnId.fromIn Vnet.vnetProtocolId 1)
          Vnet.OutgoingConnectionError.DestinationNotFound)] ∧
    Vnet.ConnId.fromIn Vnet.vnetProtocolId 1 ≠ Vnet.ConnId.fromOut Vnet.vnetProtocolId 0 := by
  exact ⟨by decide, by decide⟩

/-- C6, amended: with from_port registered and from_port distinct from
to_port (the function asserts their inequality and panics otherwise), if
to_port is unregistered exactly one OutgoingErr(DestinationNotFound)
event is emitted on the originator's listener and no Outgoing/Incoming
request on either listener, but it carries the incoming-namespaced ConnId
allocated in the same call (counter + 1), not the outgoing ConnId the
call returns; if to_port is registered with a node different from
to_node, exactly one OutgoingErr(AuthenticationError) is emitted instead,
and it does carry the returned ConnId. -/
theorem c6_outgoing_err_events (e : Vnet.VnetEarth) (from_port to_node to_port : Nat)
    (fromSock : Vnet.VSocket) (hf : alistLookup from_port e.ports = some fromSock)
    (hfp : from_port ≠ to_port) :
    (alistLookup to_port e.ports = none →
      Vnet.createOutgoing e from_port to_node to_port =
        Vnet.CreateOutgoingResult.ok (Vnet.ConnId.fromOut Vnet.vnetProtocolId e.conn_id_seed)
          { e with conn_id_seed := (e.conn_id_seed + 2) % 2^64 }
          [(from_port, Vnet.VnetEventShape.OutgoingErr to_node
            (Vnet.ConnId.fromIn Vnet.vnetProtocolId ((e.conn_id_seed + 1) % 2^64))
            Vnet.OutgoingConnectionError.DestinationNotFound)]) ∧
    (∀ toSock, alistLookup to_port e.ports = some toSock → toSock.node ≠ to_node →
      Vnet.createOutgoing e from_port to_node to_port =
        Vnet.CreateOutgoingResult.ok (Vnet.ConnId.fromOut Vnet.vnetProtocolId e.conn_id_seed)
          { e with conn_id_seed := (e.conn_id_seed + 2) % 2^64 }
          [(from_port, Vnet.VnetEventShape.OutgoingErr to_node
            (Vnet.ConnId.fromOut Vnet.vnetProtocolId e.conn_id_seed)
            Vnet.OutgoingConnectionError.AuthenticationError)]) := by
  constructor
  · intro h
    simp [Vnet.createOutgoing, hfp, hf, h]
  · intro toSock h hne
    simp [Vnet.createOutgoing, hfp, hf, h, hne]

/-- Concrete instantiation of the amended C6 theorem: one fabric missing
to_port 5, and one whose port 5 belongs to node 2 while to_node is 9. -/
theorem c6_outgoing_err_events_witness :
    Vnet.createOutgoing ⟨0, [(0, ⟨1, 0⟩)], []⟩ 0 9 5 =
      Vnet.CreateOutgoingResult.ok (Vnet.ConnId.fromOut Vnet.vnetProtocolId 0)
        ⟨2, [(0, ⟨1, 0⟩)], []⟩
        [(0, Vnet.VnetEventShape.OutgoingErr 9 (Vnet.ConnId.fromIn Vnet.vnetProtocolId 1)
          Vnet.OutgoingConnectionError.DestinationNotFound)] ∧
    Vnet.createOutgoing ⟨0, [(0, ⟨1, 0⟩), (5, ⟨2, 0⟩)], []⟩ 0 9 5 =
      Vnet.CreateOutgoingResult.ok (Vnet.ConnId.fromOut Vnet.vnetProtocolId 0)
        ⟨2, [(0, ⟨1, 0⟩), (5, ⟨2, 0⟩)], []⟩
        [(0, Vnet.VnetEventShape.OutgoingErr 9 (Vnet.ConnId.fromOut Vnet.vnetProtocolId 0)
          Vnet.OutgoingConnectionError.AuthenticationError)] := by
  have h1 := c6_outgoing_err_events ⟨0, [(0, ⟨1, 0⟩)], []⟩ 0 9 5 ⟨1, 0⟩ (by decide) (by decide)
  have h2 := c6_outgoing_err_events ⟨0, [(0, ⟨1, 0⟩), (5, ⟨2, 0⟩)], []⟩ 0 9 5 ⟨1, 0⟩
    (by decide) (by decide)
  exact ⟨h1.1 (by decide), h2.2 ⟨2, 0⟩ (by decide) (by decide)⟩

/-! ## Claim C7: round-trip time on Pong -/

/-- C7, counterexample: a Pong(0) frame read at now_ms = 70000 yields a
Stats event with rtt_ms = 70000 mod 65536 = 4464, although
70000 - 0 > 65535; the u16 as-cast reduces modulo 2^16 instead of
clamping to 65535.  This refutes the claim that values above 65535 are
reported as 65535. -/
theorem c7_rtt_truncation_counterexample :
    Tcp.pollModel 70000 ([Tcp.TcpMsg.Pong 0] : List (Tcp.TcpMsg Nat)) =
      (Tcp.PollOutcome.ok (Tcp.ConnectionEvent.Stats ⟨4464, 0, 0, 0, false⟩), [], []) ∧
    (65535 : Nat) < 70000 - 0 ∧ (4464 : Nat) ≠ 65535 := by
  exact ⟨by decide, by decide, by decide⟩

/-- C7, amended: for every Pong(t0) frame read at clock now, poll yields a
Stats event whose rtt_ms is the wrapping u64 difference now - t0 reduced
modulo 2^16 (truncated by the as-cast, not clamped); in particular, for
t0 ≤ now < 2^64 it equals (now - t0) mod 2^16, and coincides with the
exact round-trip time now - t0 whenever that is below 65536. -/
theorem c7_rtt_mod_u16 {M : Type} (now t0 : Nat) (rest : List (Tcp.TcpMsg M)) :
    Tcp.pollModel now (Tcp.TcpMsg.Pong t0 :: rest) =
      (Tcp.PollOutcome.ok (Tcp.ConnectionEvent.Stats (Tcp.pongStats now t0)), rest, []) ∧
    (Tcp.pongStats now t0).rtt_ms = u64sub now t0 % 2^16 ∧
    (t0 ≤ now → now < 2^64 → (Tcp.pongStats now t0).rtt_ms = (now - t0) % 2^16) ∧
    (t0 ≤ now → now < 2^64 → now - t0 < 2^16 → (Tcp.pongStats now t0).rtt_ms = now - t0) := by
  have e16 : (2 : Nat)^16 = 65536 := by norm_num
  have e64 : (2 : Nat)^64 = 18446744073709551616 := by norm_num
  have hr : (Tcp.pongStats now t0).rtt_ms = u64sub now t0 % 2^16 := rfl
  refine ⟨rfl, rfl, fun h1 h2 => ?_, fun h1 h2 h3 => ?_⟩
  · rw [hr]
    unfold u64sub
    rw [e16, e64]
    rw [e64] at h2
    omega
  · rw [hr]
    unfold u64sub
    rw [e16, e64]
    rw [e64] at h2
    rw [e16] at h3
    omega

/-- Concrete instantiation of the amended C7 theorem. -/
theorem c7_rtt_mod_u16_witness :
    Tcp.pollModel 70000 ([Tcp.TcpMsg.Pong 0] : List (Tcp.TcpMsg Nat)) =
      (Tcp.PollOutcome.ok (Tcp.ConnectionEvent.Stats (Tcp.pongStats 70000 0)), [], []) ∧
    (Tcp.pongStats 70000 0).rtt_ms = (70000 - 0) % 2^16 ∧
    (Tcp.pongStats 500 100).rtt_ms = 500 - 100 := by
  have h1 := c7_rtt_mod_u16 (M := Nat) 70000 0 []
  have h2 := c7_rtt_mod_u16 (M := Nat) 500 100 []
  exact ⟨h1.1, h1.2.2.1 (by decide) (by decide),
    h2.2.2.2 (by decide) (by decide) (by decide)⟩

/-! ## Claim C8: Ping handling -/

/-- C8: reading a Ping(t) frame enqueues exactly one Pong(t) onto the
reliable outgoing queue, ahead of whatever later frames enqueue, and does
not yield a connection event for the Ping itself - the poll result and
remaining frames are exactly those of polling the rest of the stream;
moreover, over a whole inbound stream, the number of Pong(t) messages
enqueued equals the number of Ping(t) frames read. -/
theorem c8_ping_produces_pong {M : Type} (now t : Nat) (rest frames : List (Tcp.TcpMsg M)) :
    Tcp.pollModel now (Tcp.TcpMsg.Ping t :: rest) =
      ((Tcp.pollModel now rest).1, (Tcp.pollModel now rest).2.1,
        Tcp.OutgoingEvent.Msg (Tcp.TcpMsg.Pong t) :: (Tcp.pollModel now rest).2.2) ∧
    (Tcp.pollAll now frames).2.countP (Tcp.isPongOut t) =
      frames.countP (Tcp.isPingFrame t) := by
  refine ⟨rfl, ?_⟩
  induction frames with
  | nil => simp [Tcp.pollAll, Tcp.isPongOut, Tcp.isPingFrame]
  | cons f rest2 ih =>
    cases f <;>
      simp [Tcp.pollAll, Tcp.isPongOut, Tcp.isPingFrame, List.countP_cons, ih]

end Atm0sSdn
